import Mathlib

/-!
Verification of `pkg/machineinformer/relocatablesysfs.go` (fromanirh/cpumgrx).

The Go functions are shallowly embedded as executable Lean definitions.
Filesystem access (`ioutil.ReadFile`, `os.Stat`, `ioutil.ReadDir`,
`filepath.Glob`) is passed in as explicit function parameters; Go `error`
values are modelled by the inductive `GoErr`, with `os.IsNotExist`
corresponding to the constructor `GoErr.fsNotExist`.  Go strings are
processed as `List Char` (one entry per rune; all inputs of interest are
ASCII, where Go's byte-wise operations coincide with rune-wise ones).
-/

/-- Error classes produced by the Go code under scrutiny.  `fsNotExist` is the
`os.IsNotExist` class, `fsOther` any other I/O error; `emptyFile` is the
"found to be empty" error of `isCPUOnline`; `invalidValues` the
"invalid values in" error; `parseBad` / `parseRange` are `strconv`'s
`ErrSyntax` / `ErrRange`; `cpuMapParse` the wrapped "failed to parse cpu map"
error of `getCPUCount`; `noCPUID` the "can't get CPU ID from" error of
`getCPUID`. -/
inductive GoErr where
  | fsNotExist
  | fsOther
  | emptyFile
  | invalidValues
  | parseBad
  | parseRange
  | cpuMapParse
  | noCPUID
deriving DecidableEq, Repr

/-- The character class trimmed by Go's `strings.TrimSpace` (ASCII part of
`unicode.IsSpace`). -/
def isGoSpace (c : Char) : Bool :=
  c = ' ' || c = '\t' || c = '\n' || c = Char.ofNat 11 || c = Char.ofNat 12 || c = '\r'

/-- Model of `strings.TrimSpace` on a rune list: drop spaces at both ends. -/
def trimSpaceL (cs : List Char) : List Char :=
  ((cs.dropWhile isGoSpace).reverse.dropWhile isGoSpace).reverse

/-- Model of `strings.TrimSpace` at the `String` level. -/
def goTrimSpace (s : String) : String :=
  String.mk (trimSpaceL s.toList)

/-- Model of `strings.TrimRight s "\x00"`: drop trailing NUL runes. -/
def goTrimRightNul (s : String) : String :=
  String.mk ((s.toList.reverse.dropWhile (fun c => c = Char.ofNat 0)).reverse)

/-- Model of Go `strings.Split` for a single-rune separator: `splitChar sep cs`
splits `cs` at every occurrence of `sep`, keeping empty fields, and yields
`[[]]` on empty input — exactly `strings.Split`'s behaviour. -/
def splitChar (sep : Char) : List Char → List (List Char)
  | [] => [[]]
  | c :: cs =>
    if c = sep then [] :: splitChar sep cs
    else
      match splitChar sep cs with
      | [] => [[c]]
      | t :: ts => (c :: t) :: ts

/-- Inverse of `splitChar`: interleave the separator back between the fields. -/
def joinSep (sep : Char) : List (List Char) → List Char
  | [] => []
  | [t] => t
  | t :: ts => t ++ sep :: joinSep sep ts

/-- Model of `strings.SplitN s "-" 3`: at most three fields, the third keeping
any further separators. -/
def splitN3 (t : List Char) : List (List Char) :=
  match splitChar '-' t with
  | a :: b :: c :: rest => [a, b, joinSep '-' (c :: rest)]
  | l => l

/-- Decimal digit value accepted by `strconv`, `none` on a non-digit rune. -/
def digitVal? (c : Char) : Option Nat :=
  if c.isDigit then some (c.toNat - '0'.toNat) else none

/-- Accumulating core of the `strconv` decimal scan. -/
def digitsValAux : List Char → Nat → Option Nat
  | [], acc => some acc
  | c :: cs, acc =>
    match digitVal? c with
    | some d => digitsValAux cs (acc * 10 + d)
    | none => none

/-- Decimal scan: `none` on an empty string or any non-digit rune, otherwise
the (unbounded) numeric value. -/
def digitsVal? (cs : List Char) : Option Nat :=
  match cs with
  | [] => none
  | _ => digitsValAux cs 0

/-- Numeric value of a digit string (total; used to state specifications). -/
def digitsToNat (cs : List Char) : Nat :=
  List.foldl (fun a c => a * 10 + (c.toNat - '0'.toNat)) 0 cs

/-- `true` iff the rune list is a non-empty run of decimal digits. -/
def isDigits (cs : List Char) : Bool :=
  !cs.isEmpty && cs.all Char.isDigit

/-- Model of `strconv.ParseUint(s, 10, 16)`: syntax error on an empty or
non-digit string, range error on values above `2^16 - 1`. -/
def goParseUint10_16 (cs : List Char) : Except GoErr Nat :=
  match digitsVal? cs with
  | none => .error .parseBad
  | some v => if v ≥ 65536 then .error .parseRange else .ok v

/-- Model of `strconv.Atoi` on the digit-only strings produced by the
`cpu([0-9]+)` capture group: 64-bit signed overflow is a range error. -/
def goAtoi (cs : List Char) : Except GoErr Nat :=
  match digitsVal? cs with
  | none => .error .parseBad
  | some v => if v ≥ 2 ^ 63 then .error .parseRange else .ok v

/-- Hexadecimal digit value, `none` on a non-hex rune. -/
def hexVal? (c : Char) : Option Nat :=
  if c.isDigit then some (c.toNat - '0'.toNat)
  else if 'a' ≤ c ∧ c ≤ 'f' then some (c.toNat - 'a'.toNat + 10)
  else if 'A' ≤ c ∧ c ≤ 'F' then some (c.toNat - 'A'.toNat + 10)
  else none

/-- Accumulating core of the `strconv` hexadecimal scan. -/
def hexValAux : List Char → Nat → Option Nat
  | [], acc => some acc
  | c :: cs, acc =>
    match hexVal? c with
    | some d => hexValAux cs (acc * 16 + d)
    | none => none

/-- Model of `strconv.ParseUint(s, 16, 64)`: syntax error on an empty or
non-hex string, range error on values above `2^64 - 1`. -/
def goParseUintHex64 (cs : List Char) : Except GoErr Nat :=
  match cs with
  | [] => .error .parseBad
  | _ =>
    match hexValAux cs 0 with
    | none => .error .parseBad
    | some v => if v ≥ 2 ^ 64 then .error .parseRange else .ok v

/-- The `for i := min; i <= max; i++ { if uint16(i) == cpuID ... }` loop of
`isCPUOnline`, rendered as a scan of the iteration range; `i % 65536` is the
`uint16(i)` conversion. -/
def rangeLoop (cpuID mn mx : Nat) : Bool :=
  (List.range' mn (mx + 1 - mn)).any (fun i => i % 65536 == cpuID)

/-- The token loop of Go `isCPUOnline`: walk the comma-separated tokens,
dispatching on the number of `-`-separated fields exactly as the Go
`switch len(splitted)` does. -/
def processTokens (cpuID : Nat) : List (List Char) → Except GoErr Bool
  | [] => .ok false
  | s :: rest =>
    match splitN3 s with
    | [_, _, _] => .error .invalidValues
    | [a, b] =>
      match goParseUint10_16 a with
      | .error e => .error e
      | .ok mn =>
        match goParseUint10_16 b with
        | .error e => .error e
        | .ok mx =>
          if mn > mx then .error .invalidValues
          else if rangeLoop cpuID mn mx then .ok true
          else processTokens cpuID rest
    | [_] =>
      match goParseUint10_16 s with
      | .error e => .error e
      | .ok value =>
        if value % 65536 == cpuID then .ok true else processTokens cpuID rest
    | _ => processTokens cpuID rest

/-- Body of Go `isCPUOnline` after the file has been read: reject empty
content, trim, split on commas and run the token loop. -/
def isCPUOnlineContent (content : List Char) (cpuID : Nat) : Except GoErr Bool :=
  if content.isEmpty then .error .emptyFile
  else processTokens cpuID (splitChar ',' (trimSpaceL content))

/-- Model of Go `isCPUOnline(path, cpuID)`: read the online-list file through
the supplied `readFile` and parse its content. -/
def isCPUOnline (readFile : String → Except GoErr String) (path : String)
    (cpuID : Nat) : Except GoErr Bool :=
  match readFile path with
  | .error e => .error e
  | .ok fileContent => isCPUOnlineContent fileContent.toList cpuID

/-- One step of `path/filepath`'s `Clean` lexical scan: fold the `/`-separated
segments onto a stack, dropping empty and `.` segments and letting `..` pop a
previous segment (or — when the path is rooted — vanish at the root).  The
stack is kept most-recent-first and reversed on exit. -/
def cleanStackRev (rooted : Bool) : List (List Char) → List (List Char) → List (List Char)
  | stk, [] => stk.reverse
  | stk, seg :: rest =>
    if seg.isEmpty || seg = ['.'] then cleanStackRev rooted stk rest
    else if seg = ['.', '.'] then
      match stk with
      | top :: stk' =>
        if top = ['.', '.'] then cleanStackRev rooted (seg :: top :: stk') rest
        else cleanStackRev rooted stk' rest
      | [] => if rooted then cleanStackRev rooted [] rest else cleanStackRev rooted [seg] rest
    else cleanStackRev rooted (seg :: stk) rest

/-- Model of `filepath.Clean` (Unix separators): lexical simplification of
`.`/`..`/empty segments; `"."` for an empty result of a relative path, `"/"`
for an empty result of a rooted one. -/
def goClean (p : String) : String :=
  match p.toList with
  | [] => "."
  | c :: cs =>
    let rooted := c = '/'
    let out := joinSep '/' (cleanStackRev rooted [] (splitChar '/' (c :: cs)))
    if rooted then String.mk ('/' :: out)
    else if out.isEmpty then "." else String.mk out

/-- Model of `filepath.Join`: skip leading empty elements, join the rest with
`/` and `Clean` the result; all-empty input gives `""`. -/
def goJoinL : List String → String
  | [] => ""
  | e :: rest => if e = "" then goJoinL rest else goClean (String.intercalate "/" (e :: rest))

/-- Model of `filepath.Abs` with the process working directory taken to be the
filesystem root: an absolute path is just `Clean`ed, a relative one is joined
under `/`.  (Every path the claims exercise is already absolute.) -/
def goAbs (p : String) : String :=
  if p.toList.head? = some '/' then goClean p else goJoinL ["/", p]

/-- The `netDir` constant of the Go source. -/
def netDir : String := "/sys/class/net"

/-- The `dmiDir` constant of the Go source. -/
def dmiDir : String := "/sys/class/dmi"

/-- The `ppcDevTree` constant of the Go source. -/
def ppcDevTree : String := "/proc/device-tree"

/-- The `s390xDevTree` constant of the Go source. -/
def s390xDevTree : String := "/etc"

/-- Model of `getCPUID`'s regular-expression scan `cpu([0-9]+)`: find the
leftmost occurrence of the literal `cpu` followed by at least one digit and
return the maximal digit run after it. -/
def findCPUNum : List Char → Option (List Char)
  | 'c' :: 'p' :: 'u' :: rest =>
    let ds := rest.takeWhile Char.isDigit
    if ds.isEmpty then findCPUNum ('p' :: 'u' :: rest) else some ds
  | _ :: rest => findCPUNum rest
  | [] => none

/-- Model of Go `getCPUID(dir)`: capture the digits of the leftmost
`cpu<digits>` occurrence, `Atoi` them and truncate to `uint16` (`% 65536`);
error when no such occurrence exists or `Atoi` overflows. -/
def getCPUID (dir : String) : Except GoErr Nat :=
  match findCPUNum dir.toList with
  | some ds =>
    match goAtoi ds with
    | .error e => .error e
    | .ok id => .ok (id % 65536)
  | none => .error .noCPUID

/-- The `cpuPath + "/../online"` path computed by Go `IsCPUOnline` before it
stats and reads the online-list file. -/
def onlinePathOf (root cpuPath : String) : String :=
  goAbs (goJoinL [root, cpuPath ++ "/../online"])

/-- Model of the method `IsCPUOnline(cpuPath)` of `relocatableSysFs`: report
online when the online file does not exist, otherwise extract the CPU id and
consult the online list, mapping every error to `false`. -/
def IsCPUOnline (stat : String → Except GoErr Unit)
    (readFile : String → Except GoErr String) (root cpuPath : String) : Bool :=
  let onlinePath := onlinePathOf root cpuPath
  match stat onlinePath with
  | .error .fsNotExist => true
  | _ =>
    match getCPUID cpuPath with
    | .error _ => false
    | .ok cpuID =>
      match isCPUOnline readFile onlinePath cpuID with
      | .error _ => false
      | .ok isOnline => isOnline

/-- Model of `GetSystemUUID`: the four-stage fallback chain over DMI
`product_uuid`, PowerPC device-tree `system-id`, device-tree `vm,uuid` and the
s390x `machine-id`, with the source's exact trimming at each stage. -/
def GetSystemUUID (readFile : String → Except GoErr String) (root : String) :
    Except GoErr String :=
  match readFile (goJoinL [root, dmiDir, "id", "product_uuid"]) with
  | .ok id => .ok (goTrimSpace id)
  | .error _ =>
    match readFile (goJoinL [root, ppcDevTree, "system-id"]) with
    | .ok id => .ok (goTrimSpace (goTrimRightNul id))
    | .error _ =>
      match readFile (goJoinL [root, ppcDevTree, "vm,uuid"]) with
      | .ok id => .ok (goTrimSpace (goTrimRightNul id))
      | .error _ =>
        match readFile (goJoinL [root, s390xDevTree, "machine-id"]) with
        | .ok id => .ok (goTrimSpace id)
        | .error e => .error e

/-- The `bitCount` loop of the Go source: shift right until zero, counting the
low bits that are set. -/
def bitCount (i : Nat) : Nat :=
  if h : i = 0 then 0
  else (if i % 2 = 1 then 1 else 0) + bitCount (i / 2)
decreasing_by exact Nat.div_lt_self (Nat.pos_of_ne_zero h) one_lt_two

/-- The mask loop of Go `getCPUCount`: trim and hex-parse each mask,
accumulating popcounts; any parse failure is wrapped into the
"failed to parse cpu map" error. -/
def cpuCountLoop (count : Nat) : List (List Char) → Except GoErr Nat
  | [] => .ok count
  | mask :: rest =>
    match goParseUintHex64 (trimSpaceL mask) with
    | .error _ => .error .cpuMapParse
    | .ok m => cpuCountLoop (count + bitCount m) rest

/-- Body of Go `getCPUCount` on the content of `shared_cpu_map`: split on
commas and sum popcounts. -/
def getCPUCountContent (content : List Char) : Except GoErr Nat :=
  cpuCountLoop 0 (splitChar ',' content)

/-- Model of Go `getCPUCount(cache)`: read `<cache>/shared_cpu_map` and sum
the set bits of its comma-separated hexadecimal masks. -/
def getCPUCount (readFile : String → Except GoErr String) (cache : String) :
    Except GoErr Nat :=
  match readFile (goJoinL [cache, "/shared_cpu_map"]) with
  | .error e => .error e
  | .ok out => getCPUCountContent out.toList

/-- The `"<property>_<package>"` key built by `GetUniqueCPUPropertyCount` for
one CPU directory: both topology files are read, a missing file degrades to
`"0"`, both values are trimmed and joined with `_`. -/
def cpuKey (readFile : String → Except GoErr String)
    (sysCPUPath propertyName : String) : List Char :=
  let propertyVal :=
    match readFile (goJoinL [sysCPUPath, "topology", propertyName]) with
    | .ok v => v
    | .error _ => "0"
  let packageVal :=
    match readFile (goJoinL [sysCPUPath, "topology", "physical_package_id"]) with
    | .ok v => v
    | .error _ => "0"
  trimSpaceL propertyVal.toList ++ '_' :: trimSpaceL packageVal.toList

/-- The per-CPU loop of `GetUniqueCPUPropertyCount`.  `none` models the
`return 0` taken when `getCPUID` fails; otherwise the accumulated list is the
insertion-ordered key set.  A CPU is processed when its online check returned
`true` or failed precisely with the not-exist error, mirroring the two
`continue` guards of the source. -/
def uniqueLoop (readFile : String → Except GoErr String)
    (onlinePath propertyName : String) :
    List (List Char) → List String → Option (List (List Char))
  | uniques, [] => some uniques
  | uniques, sysCPUPath :: rest =>
    match getCPUID sysCPUPath with
    | .error _ => none
    | .ok cpuID =>
      let proceed : Bool :=
        match isCPUOnline readFile onlinePath cpuID with
        | .error e => e == .fsNotExist
        | .ok isOnline => isOnline
      if proceed then
        let key := cpuKey readFile sysCPUPath propertyName
        uniqueLoop readFile onlinePath propertyName
          (if uniques.contains key then uniques else uniques ++ [key]) rest
      else uniqueLoop readFile onlinePath propertyName uniques rest

/-- Model of `GetUniqueCPUPropertyCount(cpuBusPath, propertyName)`: glob the
`cpu*[0-9]` directories, run the per-CPU loop against the bus-level `online`
file and return the number of distinct keys — or `0` when the loop aborted. -/
def GetUniqueCPUPropertyCount (glob : String → List String)
    (readFile : String → Except GoErr String)
    (cpuBusPath propertyName : String) : Nat :=
  let absCPUBusPath := goAbs cpuBusPath
  let pathPattern := absCPUBusPath ++ "/cpu*[0-9]"
  let sysCPUPaths := glob pathPattern
  let onlinePath := goAbs (cpuBusPath ++ "/online")
  match uniqueLoop readFile onlinePath propertyName [] sysCPUPaths with
  | none => 0
  | some uniques => uniques.length

/-- The `os.FileMode` bit `ModeDir`. -/
def ModeDir : Nat := 2 ^ 31

/-- The `os.FileMode` bit `ModeSymlink`. -/
def ModeSymlink : Nat := 2 ^ 27

/-- A directory entry as returned by `ioutil.ReadDir` / `os.Stat`: its base
name and its `os.FileMode` bits. -/
structure FileInfo where
  name : String
  mode : Nat
deriving DecidableEq, Repr

/-- `os.FileInfo.IsDir`: the `ModeDir` bit is set. -/
def FileInfo.isDir (f : FileInfo) : Bool :=
  Nat.land f.mode ModeDir != 0

/-- The symlink test the Go source intended: the `ModeSymlink` bit is set. -/
def FileInfo.isSymlink (f : FileInfo) : Bool :=
  Nat.land f.mode ModeSymlink != 0

/-- The filtering loop of `GetNetworkDevices`: for each entry the (always
true) `f.Mode()|os.ModeSymlink != 0` guard routes through `os.Stat`, a failing
stat skips the entry (`continue`), and the surviving info is kept when it is a
directory. -/
def netDevLoop (stat : String → Except GoErr FileInfo) (root : String) :
    List FileInfo → List FileInfo
  | [] => []
  | f :: rest =>
    let f? : Option FileInfo :=
      if Nat.lor f.mode ModeSymlink ≠ 0 then
        match stat (goJoinL [root, netDir, f.name]) with
        | .error _ => none
        | .ok g => some g
      else some f
    match f? with
    | none => netDevLoop stat root rest
    | some g => if g.isDir then g :: netDevLoop stat root rest else netDevLoop stat root rest

/-- Model of `GetNetworkDevices`: list the network class directory and filter
through `netDevLoop`. -/
def GetNetworkDevices (readDir : String → Except GoErr (List FileInfo))
    (stat : String → Except GoErr FileInfo) (root : String) :
    Except GoErr (List FileInfo) :=
  match readDir (goJoinL [root, netDir]) with
  | .error e => .error e
  | .ok files => .ok (netDevLoop stat root files)

/-- Specification-side shape of one well-formed online-list token: either a
bare decimal integer below `2^16`, or an `a-b` range of two such integers with
`a ≤ b`. -/
def wfToken (t : List Char) : Bool :=
  match splitChar '-' t with
  | [a] => isDigits a && decide (digitsToNat a < 65536)
  | [a, b] =>
    isDigits a && isDigits b &&
      decide (digitsToNat a ≤ digitsToNat b) && decide (digitsToNat b < 65536)
  | _ => false

/-- Specification-side matching of a CPU id against one token: equality with a
literal token, or containment in an inclusive range token. -/
def tokenHas (i : Nat) (t : List Char) : Bool :=
  match splitChar '-' t with
  | [a] => digitsToNat a == i
  | [a, b] => decide (digitsToNat a ≤ i) && decide (i ≤ digitsToNat b)
  | _ => false

/-- Specification-side resolution of a network entry: statting its path
(following symlinks) reaches a directory. -/
def resolvesToDir (stat : String → Except GoErr FileInfo) (root : String)
    (f : FileInfo) : Bool :=
  match stat (goJoinL [root, netDir, f.name]) with
  | .ok g => g.isDir
  | .error _ => false

/-- Specification-side filter of the network device claim: the entry is a
directory, or a symbolic link whose resolved target is a directory. -/
def claimNetPred (stat : String → Except GoErr FileInfo) (root : String)
    (f : FileInfo) : Bool :=
  f.isDir || (f.isSymlink && resolvesToDir stat root f)

set_option maxRecDepth 4000

lemma splitChar_ne_nil (sep : Char) (cs : List Char) : splitChar sep cs ≠ [] := by
  induction cs with
  | nil => simp [splitChar]
  | cons c cs ih =>
    simp only [splitChar]
    by_cases h : c = sep
    · simp [h]
    · simp only [h, if_false]
      cases hs : splitChar sep cs with
      | nil => simp
      | cons t ts => simp

lemma joinSep_cons_cons (sep : Char) (c : Char) (t : List Char)
    (ts : List (List Char)) :
    joinSep sep ((c :: t) :: ts) = c :: joinSep sep (t :: ts) := by
  cases ts <;> rfl

lemma joinSep_splitChar (sep : Char) (cs : List Char) :
    joinSep sep (splitChar sep cs) = cs := by
  induction cs with
  | nil => rfl
  | cons c cs ih =>
    simp only [splitChar]
    by_cases h : c = sep
    · simp only [h, if_true]
      cases hs : splitChar sep cs with
      | nil => exact absurd hs (splitChar_ne_nil sep cs)
      | cons t ts =>
        have : joinSep sep ([] :: t :: ts) = sep :: joinSep sep (t :: ts) := rfl
        rw [this, ← hs, ih]
    · simp only [h, if_false]
      cases hs : splitChar sep cs with
      | nil => exact absurd hs (splitChar_ne_nil sep cs)
      | cons t ts =>
        rw [joinSep_cons_cons, ← hs, ih]

lemma mem_joinSep {c : Char} {sep : Char} {ts : List (List Char)}
    (h : c ∈ joinSep sep ts) : (∃ t ∈ ts, c ∈ t) ∨ c = sep := by
  induction ts with
  | nil => simp [joinSep] at h
  | cons t ts ih =>
    cases ts with
    | nil =>
      simp only [joinSep] at h
      exact Or.inl ⟨t, List.mem_cons_self t [], h⟩
    | cons t' ts' =>
      have : joinSep sep (t :: t' :: ts') = t ++ sep :: joinSep sep (t' :: ts') := rfl
      rw [this] at h
      rcases List.mem_append.mp h with h1 | h2
      · exact Or.inl ⟨t, List.mem_cons_self t _, h1⟩
      · rcases List.mem_cons.mp h2 with h3 | h4
        · exact Or.inr h3
        · rcases ih h4 with ⟨u, hu, hcu⟩ | hsep
          · exact Or.inl ⟨u, List.mem_cons_of_mem t hu, hcu⟩
          · exact Or.inr hsep

lemma dropWhile_all_false {p : Char → Bool} {cs : List Char}
    (h : ∀ c ∈ cs, p c = false) : cs.dropWhile p = cs := by
  cases cs with
  | nil => rfl
  | cons c cs =>
    have hc : p c = false := h c (List.mem_cons_self c cs)
    simp [List.dropWhile, hc]

lemma trimSpaceL_eq_self {cs : List Char}
    (h : ∀ c ∈ cs, isGoSpace c = false) : trimSpaceL cs = cs := by
  unfold trimSpaceL
  rw [dropWhile_all_false h]
  rw [dropWhile_all_false (by intro c hc; exact h c (List.mem_reverse.mp hc))]
  exact List.reverse_reverse cs

lemma digitsValAux_all {cs : List Char} (h : ∀ c ∈ cs, c.isDigit = true) :
    ∀ acc, digitsValAux cs acc =
      some (List.foldl (fun a c => a * 10 + (c.toNat - '0'.toNat)) acc cs) := by
  induction cs with
  | nil => intro acc; rfl
  | cons c cs ih =>
    intro acc
    have hc : c.isDigit = true := h c (List.mem_cons_self c cs)
    simp only [digitsValAux, digitVal?, hc, if_true, List.foldl]
    exact ih (fun x hx => h x (List.mem_cons_of_mem c hx)) _

lemma digitsVal?_eq {cs : List Char} (h : isDigits cs = true) :
    digitsVal? cs = some (digitsToNat cs) := by
  unfold isDigits at h
  rw [Bool.and_eq_true] at h
  obtain ⟨hne, hall⟩ := h
  cases cs with
  | nil => simp at hne
  | cons c cs =>
    simp only [digitsVal?]
    exact digitsValAux_all (by simpa [List.all_eq_true] using hall) 0

lemma goParseUint10_16_ok {cs : List Char} (h : isDigits cs = true)
    (hlt : digitsToNat cs < 65536) :
    goParseUint10_16 cs = .ok (digitsToNat cs) := by
  simp [goParseUint10_16, digitsVal?_eq h, Nat.not_le_of_lt hlt]

lemma rangeLoop_eq_true_iff {i mn mx : Nat} (hmx : mx < 65536) :
    rangeLoop i mn mx = true ↔ mn ≤ i ∧ i ≤ mx := by
  unfold rangeLoop
  rw [List.any_eq_true]
  constructor
  · rintro ⟨j, hj, hji⟩
    rw [List.mem_range'_1] at hj
    obtain ⟨hmnj, hjlt⟩ := hj
    have hjmx : j ≤ mx := by omega
    have hjsmall : j < 65536 := lt_of_le_of_lt hjmx hmx
    have hmod : j % 65536 = j := Nat.mod_eq_of_lt hjsmall
    rw [hmod, beq_iff_eq] at hji
    omega
  · rintro ⟨h1, h2⟩
    refine ⟨i, ?_, ?_⟩
    · rw [List.mem_range'_1]
      omega
    · have : i < 65536 := lt_of_le_of_lt h2 hmx
      simp [Nat.mod_eq_of_lt this]

lemma splitN3_of_one {t a : List Char} (h : splitChar '-' t = [a]) :
    splitN3 t = [a] := by
  simp [splitN3, h]

lemma splitN3_of_two {t a b : List Char} (h : splitChar '-' t = [a, b]) :
    splitN3 t = [a, b] := by
  simp [splitN3, h]

lemma processTokens_cons_wf (i : Nat) (t : List Char) (rest : List (List Char))
    (hwf : wfToken t = true) :
    processTokens i (t :: rest) =
      if tokenHas i t then .ok true else processTokens i rest := by
  unfold wfToken at hwf
  rcases hsplit : splitChar '-' t with _ | ⟨a, _ | ⟨b, _ | ⟨c, rest'⟩⟩⟩
  · rw [hsplit] at hwf; simp at hwf
  · rw [hsplit] at hwf
    simp only [Bool.and_eq_true, decide_eq_true_eq] at hwf
    obtain ⟨hdig, hlt⟩ := hwf
    have hta : t = a := by
      have h1 := joinSep_splitChar '-' t
      rw [hsplit] at h1
      exact h1.symm
    simp only [processTokens, splitN3_of_one hsplit]
    rw [hta, goParseUint10_16_ok hdig hlt]
    simp only [Nat.mod_eq_of_lt hlt]
    unfold tokenHas
    rw [← hta, hsplit, hta]
  · rw [hsplit] at hwf
    simp only [Bool.and_eq_true, decide_eq_true_eq] at hwf
    obtain ⟨⟨⟨hda, hdb⟩, hab⟩, hblt⟩ := hwf
    have halt : digitsToNat a < 65536 := lt_of_le_of_lt hab hblt
    simp only [processTokens, splitN3_of_two hsplit]
    rw [goParseUint10_16_ok hda halt, goParseUint10_16_ok hdb hblt]
    simp only [Nat.not_lt.mpr hab, if_neg (Nat.not_lt.mpr hab)]
    unfold tokenHas
    rw [hsplit]
    simp only [gt_iff_lt, Nat.not_lt.mpr hab, if_false]
    by_cases hr : digitsToNat a ≤ i ∧ i ≤ digitsToNat b
    · rw [if_pos ((rangeLoop_eq_true_iff hblt).mpr hr), if_pos (by simp [hr.1, hr.2])]
    · have hfalse : rangeLoop i (digitsToNat a) (digitsToNat b) = false := by
        rcases Bool.eq_false_or_eq_true (rangeLoop i (digitsToNat a) (digitsToNat b)) with h | h
        · exact absurd ((rangeLoop_eq_true_iff hblt).mp h) hr
        · exact h
      rw [hfalse]
      simp only [Bool.false_eq_true, if_false]
      have hcond : ¬((decide (digitsToNat a ≤ i) && decide (i ≤ digitsToNat b)) = true) := by
        simp only [Bool.and_eq_true, decide_eq_true_eq]
        exact hr
      exact (if_neg hcond).symm
  · rw [hsplit] at hwf; simp at hwf

lemma processTokens_eq_any (i : Nat) (toks : List (List Char))
    (hwf : ∀ t ∈ toks, wfToken t = true) :
    processTokens i toks = .ok (toks.any (tokenHas i)) := by
  induction toks with
  | nil => rfl
  | cons t rest ih =>
    rw [processTokens_cons_wf i t rest (hwf t (List.mem_cons_self t rest))]
    rw [List.any_cons]
    by_cases h : tokenHas i t = true
    · simp [h]
    · have hf : tokenHas i t = false := Bool.not_eq_true _ ▸ Bool.eq_false_iff.mpr h
      rw [hf]
      rw [if_neg (by simp)]
      rw [Bool.false_or]
      exact ih (fun x hx => hwf x (List.mem_cons_of_mem t hx))

lemma processTokens_append_skip (i : Nat) (pre l : List (List Char))
    (hpre : ∀ t ∈ pre, wfToken t = true ∧ tokenHas i t = false) :
    processTokens i (pre ++ l) = processTokens i l := by
  induction pre with
  | nil => rfl
  | cons t pre ih =>
    obtain ⟨hwf, hhas⟩ := hpre t (List.mem_cons_self t pre)
    rw [List.cons_append, processTokens_cons_wf i t _ hwf, if_neg (by simp [hhas])]
    exact ih (fun x hx => hpre x (List.mem_cons_of_mem t hx))

lemma wfToken_chars {t : List Char} (hwf : wfToken t = true) {c : Char}
    (hc : c ∈ t) : c.isDigit = true ∨ c = '-' := by
  unfold wfToken at hwf
  have hjoin := joinSep_splitChar '-' t
  rcases hsplit : splitChar '-' t with _ | ⟨a, _ | ⟨b, _ | ⟨x, rest'⟩⟩⟩ <;>
    rw [hsplit] at hwf hjoin
  · simp at hwf
  · simp only [Bool.and_eq_true, decide_eq_true_eq] at hwf
    obtain ⟨hdig, _⟩ := hwf
    have hta : t = a := hjoin.symm
    rw [hta] at hc
    unfold isDigits at hdig
    rw [Bool.and_eq_true, List.all_eq_true] at hdig
    exact Or.inl (hdig.2 c hc)
  · simp only [Bool.and_eq_true, decide_eq_true_eq] at hwf
    obtain ⟨⟨⟨hda, hdb⟩, _⟩, _⟩ := hwf
    have ht : t = a ++ '-' :: b := by
      rw [← hjoin]; rfl
    rw [ht] at hc
    rcases List.mem_append.mp hc with h1 | h2
    · unfold isDigits at hda
      rw [Bool.and_eq_true, List.all_eq_true] at hda
      exact Or.inl (hda.2 c h1)
    · rcases List.mem_cons.mp h2 with h3 | h4
      · exact Or.inr h3
      · unfold isDigits at hdb
        rw [Bool.and_eq_true, List.all_eq_true] at hdb
        exact Or.inl (hdb.2 c h4)
  · simp at hwf

lemma isGoSpace_eq_false_of_digit {c : Char} (h : c.isDigit = true) :
    isGoSpace c = false := by
  rcases Bool.eq_false_or_eq_true (isGoSpace c) with ht | hf
  · exfalso
    unfold isGoSpace at ht
    simp only [Bool.or_eq_true, decide_eq_true_eq] at ht
    rcases ht with ((((h1 | h1) | h1) | h1) | h1) | h1 <;> subst h1 <;>
      exact absurd h (by decide)
  · exact hf

lemma wf_content_no_space {cs : List Char}
    (hwf : ∀ t ∈ splitChar ',' cs, wfToken t = true) :
    ∀ c ∈ cs, isGoSpace c = false := by
  intro c hc
  rw [← joinSep_splitChar ',' cs] at hc
  rcases mem_joinSep hc with ⟨t, ht, hct⟩ | hcomma
  · rcases wfToken_chars (hwf t ht) hct with hd | hdash
    · exact isGoSpace_eq_false_of_digit hd
    · subst hdash; decide
  · subst hcomma; decide

lemma toList_ne_nil {s : String} (h : s ≠ "") : s.toList ≠ [] := by
  intro hnil
  apply h
  cases s with
  | mk data =>
    have hdata : data = [] := hnil
    rw [hdata]

lemma dropWhile_all_true {p : Char → Bool} {cs : List Char}
    (h : ∀ c ∈ cs, p c = true) : cs.dropWhile p = [] := by
  induction cs with
  | nil => rfl
  | cons c cs ih =>
    simp only [List.dropWhile, h c (List.mem_cons_self c cs)]
    exact ih (fun x hx => h x (List.mem_cons_of_mem c hx))

lemma trimSpaceL_all_space {cs : List Char}
    (h : ∀ c ∈ cs, isGoSpace c = true) : trimSpaceL cs = [] := by
  unfold trimSpaceL
  rw [dropWhile_all_true h]
  rfl

lemma cpuCountLoop_ok :
    ∀ (masks : List (List Char)) (vs : List Nat) (acc : Nat),
      List.Forall₂ (fun m v => goParseUintHex64 (trimSpaceL m) = .ok v) masks vs →
      cpuCountLoop acc masks = .ok (acc + (vs.map bitCount).sum) := by
  intro masks
  induction masks with
  | nil =>
    intro vs acc h
    cases h
    simp [cpuCountLoop]
  | cons m rest ih =>
    intro vs acc h
    cases h with
    | cons hm hrest =>
      rename_i v vs'
      simp only [cpuCountLoop, hm]
      rw [ih vs' _ hrest]
      simp only [List.map_cons, List.sum_cons]
      congr 1
      omega

lemma cpuCountLoop_error :
    ∀ (masks : List (List Char)) (acc : Nat),
      (∃ m ∈ masks, ∃ e, goParseUintHex64 (trimSpaceL m) = .error e) →
      cpuCountLoop acc masks = .error .cpuMapParse := by
  intro masks
  induction masks with
  | nil => rintro acc ⟨m, hm, _⟩; simp at hm
  | cons m rest ih =>
    rintro acc ⟨q, hq, e, he⟩
    rcases List.mem_cons.mp hq with rfl | hq'
    · simp [cpuCountLoop, he]
    · cases hp : goParseUintHex64 (trimSpaceL m) with
      | error e' => simp [cpuCountLoop, hp]
      | ok v =>
        simp only [cpuCountLoop, hp]
        exact ih _ ⟨q, hq', e, he⟩

lemma uniqueLoop_none (readFile : String → Except GoErr String)
    (onlinePath propertyName : String) :
    ∀ (paths : List String) (uniques : List (List Char)),
      (∃ p ∈ paths, ∃ e, getCPUID p = .error e) →
      uniqueLoop readFile onlinePath propertyName uniques paths = none := by
  intro paths
  induction paths with
  | nil => rintro uniques ⟨p, hp, _⟩; simp at hp
  | cons p rest ih =>
    rintro uniques ⟨q, hq, e, he⟩
    rcases List.mem_cons.mp hq with rfl | hq'
    · simp [uniqueLoop, he]
    · cases hid : getCPUID p with
      | error e' => simp [uniqueLoop, hid]
      | ok cpuID =>
        simp only [uniqueLoop, hid]
        split <;> exact ih _ ⟨q, hq', e, he⟩

lemma takeWhile_all {p : Char → Bool} {cs : List Char}
    (h : ∀ c ∈ cs, p c = true) : cs.takeWhile p = cs := by
  induction cs with
  | nil => rfl
  | cons c cs ih =>
    rw [List.takeWhile_cons, h c (List.mem_cons_self c cs)]
    simp only [if_true]
    rw [ih (fun x hx => h x (List.mem_cons_of_mem c hx))]

lemma lor_ModeSymlink_ne_zero (m : Nat) : Nat.lor m ModeSymlink ≠ 0 := by
  intro h
  have hb : (m ||| ModeSymlink).testBit 27 = false := by
    have hlor : m ||| ModeSymlink = 0 := h
    rw [hlor]
    exact Nat.zero_testBit 27
  rw [Nat.testBit_lor] at hb
  have hs : ModeSymlink.testBit 27 = true := by
    unfold ModeSymlink
    exact Nat.testBit_two_pow_self
  simp [hs] at hb


lemma netDevLoop_cons (stat : String → Except GoErr FileInfo) (root : String)
    (f : FileInfo) (rest : List FileInfo) :
    netDevLoop stat root (f :: rest) =
      match stat (goJoinL [root, netDir, f.name]) with
      | .error _ => netDevLoop stat root rest
      | .ok g =>
        if g.isDir then g :: netDevLoop stat root rest
        else netDevLoop stat root rest := by
  simp only [netDevLoop]
  rw [if_pos (lor_ModeSymlink_ne_zero f.mode)]
  cases stat (goJoinL [root, netDir, f.name]) <;> rfl

lemma netDevLoop_names (stat : String → Except GoErr FileInfo) (root : String) :
    ∀ files : List FileInfo,
      (∀ f ∈ files,
        (f.isSymlink = false → stat (goJoinL [root, netDir, f.name]) = .ok f) ∧
        (∀ g, stat (goJoinL [root, netDir, f.name]) = .ok g → g.name = f.name) ∧
        ¬(f.isSymlink = true ∧ f.isDir = true)) →
      (netDevLoop stat root files).map FileInfo.name =
        ((files.filter (claimNetPred stat root)).map FileInfo.name) := by
  intro files
  induction files with
  | nil => intro _; rfl
  | cons f rest ih =>
    intro h
    obtain ⟨hstat, hname, hexcl⟩ := h f (List.mem_cons_self f rest)
    have hrest := ih (fun x hx => h x (List.mem_cons_of_mem f hx))
    rw [netDevLoop_cons, List.filter_cons]
    cases hs : stat (goJoinL [root, netDir, f.name]) with
    | error e =>
      have hsym : f.isSymlink = true := by
        rcases Bool.eq_false_or_eq_true f.isSymlink with h1 | h1
        · exact h1
        · rw [hstat h1] at hs
          cases hs
      have hdir : f.isDir = false := by
        rcases Bool.eq_false_or_eq_true f.isDir with h1 | h1
        · exact absurd ⟨hsym, h1⟩ hexcl
        · exact h1
      have hpred : claimNetPred stat root f = false := by
        unfold claimNetPred resolvesToDir
        rw [hdir, hsym, hs]
        rfl
      rw [hpred]
      simp only [Bool.false_eq_true, if_false]
      exact hrest
    | ok g =>
      have hpred : claimNetPred stat root f = g.isDir := by
        by_cases hsym : f.isSymlink = true
        · have hdir : f.isDir = false := by
            rcases Bool.eq_false_or_eq_true f.isDir with h1 | h1
            · exact absurd ⟨hsym, h1⟩ hexcl
            · exact h1
          unfold claimNetPred resolvesToDir
          rw [hdir, hsym, hs]
          simp
        · have hsymf : f.isSymlink = false := by
            rcases Bool.eq_false_or_eq_true f.isSymlink with h1 | h1
            · exact absurd h1 hsym
            · exact h1
          have hokf : stat (goJoinL [root, netDir, f.name]) = .ok f := hstat hsymf
          have hgf : g = f := by
            rw [hokf] at hs
            cases hs
            rfl
          unfold claimNetPred
          rw [hsymf, hgf]
          simp
      have hgname : g.name = f.name := hname g hs
      rw [hpred]
      show List.map FileInfo.name
          (if g.isDir = true then g :: netDevLoop stat root rest
            else netDevLoop stat root rest) =
        List.map FileInfo.name
          (if g.isDir = true then f :: List.filter (claimNetPred stat root) rest
            else List.filter (claimNetPred stat root) rest)
      rcases Bool.eq_false_or_eq_true g.isDir with hgd | hgd
      · rw [hgd]
        simp only [if_true, List.map_cons]
        rw [hgname, hrest]
      · rw [hgd]
        simp only [Bool.false_eq_true, if_false]
        exact hrest

lemma isCPUOnlineContent_ne_empty {cs : List Char} (h : cs ≠ []) (i : Nat) :
    isCPUOnlineContent cs i = processTokens i (splitChar ',' (trimSpaceL cs)) := by
  cases cs with
  | nil => exact absurd rfl h
  | cons c cs' => rfl

/-- Claim C1: for every non-empty, well-formed online-range content (comma-separated
tokens, each a bare non-negative 16-bit integer or an inclusive `a-b` range
with `a ≤ b`) and every CPU id, `isCPUOnline` succeeds and returns `true`
exactly when the id equals a literal token or lies within a range token, and
returns `false` without error when no token matches. -/
theorem isCPUOnline_wf_iff (readFile : String → Except GoErr String)
    (path content : String) (i : Nat)
    (hread : readFile path = .ok content) (hne : content ≠ "")
    (hwf : ∀ t ∈ splitChar ',' content.toList, wfToken t = true) :
    isCPUOnline readFile path i =
      .ok ((splitChar ',' content.toList).any (tokenHas i)) := by
  unfold isCPUOnline
  rw [hread]
  show isCPUOnlineContent content.toList i =
    .ok ((splitChar ',' content.toList).any (tokenHas i))
  rw [isCPUOnlineContent_ne_empty (toList_ne_nil hne)]
  rw [trimSpaceL_eq_self (wf_content_no_space hwf)]
  exact processTokens_eq_any i _ hwf

/-- Witness for `isCPUOnline_wf_iff`: content "0,3-5,10" with CPU id 4 is
reported online. -/
theorem isCPUOnline_wf_iff_witness :
    isCPUOnline (fun _ => .ok "0,3-5,10") "/sys/devices/system/cpu/online" 4 =
      .ok true := by
  have h := isCPUOnline_wf_iff (fun _ => .ok "0,3-5,10")
    "/sys/devices/system/cpu/online" "0,3-5,10" 4 rfl (by decide) (by decide)
  rw [h]
  rfl

/-- Claim C4 counterexample: the content " " is empty after trimming whitespace, yet
`isCPUOnline` fails with the `strconv` syntax error, not with the
empty-file error class the claim requires. -/
theorem isCPUOnline_whitespace_cex :
    isCPUOnline (fun _ => .ok " ") "/sys/devices/system/cpu/online" 0 =
      .error .parseBad ∧ GoErr.parseBad ≠ GoErr.emptyFile := by
  exact ⟨rfl, by decide⟩

/-- Claim C4 (amended): on whitespace-only content `isCPUOnline` always fails, but
the `EmptyFileError` class is produced only when the content is empty before
trimming (the length check precedes the trim); non-empty all-whitespace
content falls through to the token loop and dies with a parse error. -/
theorem isCPUOnline_empty_content (readFile : String → Except GoErr String)
    (path content : String) (i : Nat)
    (hread : readFile path = .ok content)
    (hsp : ∀ c ∈ content.toList, isGoSpace c = true) :
    isCPUOnline readFile path i =
      .error (if content = "" then GoErr.emptyFile else GoErr.parseBad) := by
  unfold isCPUOnline
  rw [hread]
  by_cases hc : content = ""
  · subst hc
    rfl
  · rw [if_neg hc]
    show isCPUOnlineContent content.toList i = .error GoErr.parseBad
    rw [isCPUOnlineContent_ne_empty (toList_ne_nil hc)]
    rw [trimSpaceL_all_space hsp]
    rfl

/-- Witness for `isCPUOnline_empty_content`: the empty content yields the
empty-file error. -/
theorem isCPUOnline_empty_content_witness :
    isCPUOnline (fun _ => .ok "") "/sys/devices/system/cpu/online" 2 =
      .error .emptyFile := by
  have h := isCPUOnline_empty_content (fun _ => .ok "")
    "/sys/devices/system/cpu/online" "" 2 rfl (by decide)
  rw [h]
  rfl

/-- Claim C5 counterexample: the content "3,5-3" contains the inverted range token
"5-3", yet for CPU id 3 `isCPUOnline` returns `Except.ok true` — the literal
token "3" matches and returns before the invalid token is examined, so the
claimed unconditional failure is false. -/
theorem isCPUOnline_badRange_cex :
    isCPUOnline (fun _ => .ok "3,5-3") "/sys/devices/system/cpu/online" 3 =
      .ok true := by
  rfl

/-- Claim C5 (amended): a malformed token makes `isCPUOnline` fail provided no
earlier token matched: with every earlier token well formed and non-matching,
a token of three or more dash-separated fields — or a range of two valid
16-bit bounds with min above max — produces the invalid-range error, while a
range bound that fails to parse as a non-negative 16-bit integer produces that
parse error instead. -/
theorem isCPUOnline_badToken (readFile : String → Except GoErr String)
    (path content : String) (i : Nat) (pre rest : List (List Char))
    (bad : List Char)
    (hread : readFile path = .ok content) (hne : content ≠ "")
    (htoks : splitChar ',' (trimSpaceL content.toList) = pre ++ bad :: rest)
    (hpre : ∀ t ∈ pre, wfToken t = true ∧ tokenHas i t = false) :
    (3 ≤ (splitChar '-' bad).length →
      isCPUOnline readFile path i = .error .invalidValues) ∧
    (∀ a b, splitChar '-' bad = [a, b] → isDigits a = true →
      digitsToNat a < 65536 → isDigits b = true → digitsToNat b < 65536 →
      digitsToNat b < digitsToNat a →
      isCPUOnline readFile path i = .error .invalidValues) ∧
    (∀ a b e, splitChar '-' bad = [a, b] →
      (goParseUint10_16 a = .error e ∨
        (∃ mn, goParseUint10_16 a = .ok mn ∧ goParseUint10_16 b = .error e)) →
      isCPUOnline readFile path i = .error e) := by
  have hbase : isCPUOnline readFile path i = processTokens i (bad :: rest) := by
    unfold isCPUOnline
    rw [hread]
    show isCPUOnlineContent content.toList i = processTokens i (bad :: rest)
    rw [isCPUOnlineContent_ne_empty (toList_ne_nil hne)]
    rw [htoks]
    exact processTokens_append_skip i pre (bad :: rest) hpre
  refine ⟨?_, ?_, ?_⟩
  · intro hlen
    rw [hbase]
    rcases hsb : splitChar '-' bad with _ | ⟨a, _ | ⟨b, _ | ⟨c, rest'⟩⟩⟩ <;>
      rw [hsb] at hlen
    · simp at hlen
    · simp at hlen
    · simp at hlen
    · have hsn : splitN3 bad = [a, b, joinSep '-' (c :: rest')] := by
        simp [splitN3, hsb]
      simp [processTokens, hsn]
  · intro a b hsb hda halt hdb hblt hba
    rw [hbase]
    have hsn := splitN3_of_two hsb
    simp only [processTokens, hsn]
    rw [goParseUint10_16_ok hda halt, goParseUint10_16_ok hdb hblt]
    simp only [gt_iff_lt, hba, if_true]
  · intro a b e hsb hparse
    rw [hbase]
    have hsn := splitN3_of_two hsb
    simp only [processTokens, hsn]
    rcases hparse with h1 | ⟨mn, h2, h3⟩
    · rw [h1]
    · rw [h2, h3]

/-- Witness for `isCPUOnline_badToken`: content "2,5-3" with CPU id 1 hits the
inverted range after a non-matching valid token and fails with the
invalid-range error. -/
theorem isCPUOnline_badToken_witness :
    isCPUOnline (fun _ => .ok "2,5-3") "/sys/devices/system/cpu/online" 1 =
      .error .invalidValues := by
  have h := (isCPUOnline_badToken (fun _ => .ok "2,5-3")
    "/sys/devices/system/cpu/online" "2,5-3" 1 [['2']] [] ['5', '-', '3']
    rfl (by decide) (by decide) (by decide)).2.1 ['5'] ['3'] (by decide)
    (by decide) (by decide) (by decide) (by decide) (by decide)
  exact h

/-- Claim C2: over a synthetic tree with CPU directories cpu0..cpu3, core ids
0,0,1,1, package ids all 0 and all four CPUs online (online list "0-3"),
`GetUniqueCPUPropertyCount` for `core_id` returns 2, the number of distinct
`<property>_<package>` keys. -/
theorem getUniqueCPUPropertyCount_two_cores :
    GetUniqueCPUPropertyCount
      (fun pat =>
        if pat = "/sys/devices/system/cpu/cpu*[0-9]" then
          ["/sys/devices/system/cpu/cpu0", "/sys/devices/system/cpu/cpu1",
            "/sys/devices/system/cpu/cpu2", "/sys/devices/system/cpu/cpu3"]
        else [])
      (fun p =>
        if p = "/sys/devices/system/cpu/online" then .ok "0-3"
        else if p = "/sys/devices/system/cpu/cpu0/topology/core_id" then .ok "0"
        else if p = "/sys/devices/system/cpu/cpu1/topology/core_id" then .ok "0"
        else if p = "/sys/devices/system/cpu/cpu2/topology/core_id" then .ok "1"
        else if p = "/sys/devices/system/cpu/cpu3/topology/core_id" then .ok "1"
        else if p = "/sys/devices/system/cpu/cpu0/topology/physical_package_id" then .ok "0"
        else if p = "/sys/devices/system/cpu/cpu1/topology/physical_package_id" then .ok "0"
        else if p = "/sys/devices/system/cpu/cpu2/topology/physical_package_id" then .ok "0"
        else if p = "/sys/devices/system/cpu/cpu3/topology/physical_package_id" then .ok "0"
        else .error .fsNotExist)
      "/sys/devices/system/cpu" "core_id" = 2 := by
  rfl

/-- Claim C3 counterexample: with CPU directory cpu0 (online, `core_id` 7, package
0) enumerated together with the path "cpufreq9" — which matches the glob
pattern but yields no CPU id — `GetUniqueCPUPropertyCount` returns 0, not the
count 1 of the successfully processed CPUs; dropping the bad path gives 1,
so the extraction failure aborts the count instead of being skipped. -/
theorem getUniqueCPUPropertyCount_abort_cex :
    GetUniqueCPUPropertyCount
      (fun pat =>
        if pat = "/sys/devices/system/cpu/cpu*[0-9]" then
          ["/sys/devices/system/cpu/cpu0", "/sys/devices/system/cpu/cpufreq9"]
        else [])
      (fun p =>
        if p = "/sys/devices/system/cpu/online" then .ok "0"
        else if p = "/sys/devices/system/cpu/cpu0/topology/core_id" then .ok "7"
        else if p = "/sys/devices/system/cpu/cpu0/topology/physical_package_id" then .ok "0"
        else .error .fsNotExist)
      "/sys/devices/system/cpu" "core_id" = 0 ∧
    GetUniqueCPUPropertyCount
      (fun pat =>
        if pat = "/sys/devices/system/cpu/cpu*[0-9]" then
          ["/sys/devices/system/cpu/cpu0"]
        else [])
      (fun p =>
        if p = "/sys/devices/system/cpu/online" then .ok "0"
        else if p = "/sys/devices/system/cpu/cpu0/topology/core_id" then .ok "7"
        else if p = "/sys/devices/system/cpu/cpu0/topology/physical_package_id" then .ok "0"
        else .error .fsNotExist)
      "/sys/devices/system/cpu" "core_id" = 1 := by
  exact ⟨rfl, rfl⟩

/-- Claim C3 (amended): when CPU-id extraction fails for any enumerated path, the
whole `GetUniqueCPUPropertyCount` operation aborts and returns 0, discarding
the CPUs already processed, rather than skipping the path. -/
theorem getUniqueCPUPropertyCount_zero_of_badPath
    (glob : String → List String) (readFile : String → Except GoErr String)
    (cpuBusPath propertyName : String)
    (h : ∃ p ∈ glob (goAbs cpuBusPath ++ "/cpu*[0-9]"),
      ∃ e, getCPUID p = .error e) :
    GetUniqueCPUPropertyCount glob readFile cpuBusPath propertyName = 0 := by
  simp only [GetUniqueCPUPropertyCount]
  rw [uniqueLoop_none readFile (goAbs (cpuBusPath ++ "/online")) propertyName
    (glob (goAbs cpuBusPath ++ "/cpu*[0-9]")) [] h]

/-- Witness for `getUniqueCPUPropertyCount_zero_of_badPath`: one globbed path
without a `cpu<N>` segment forces the result 0. -/
theorem getUniqueCPUPropertyCount_zero_of_badPath_witness :
    GetUniqueCPUPropertyCount
      (fun _ => ["/sys/devices/system/cpu/cpufreq9"]) (fun _ => .ok "0")
      "/sys/devices/system/cpu" "core_id" = 0 := by
  exact getUniqueCPUPropertyCount_zero_of_badPath
    (fun _ => ["/sys/devices/system/cpu/cpufreq9"]) (fun _ => .ok "0")
    "/sys/devices/system/cpu" "core_id"
    ⟨"/sys/devices/system/cpu/cpufreq9", List.mem_cons_self _ _,
      GoErr.noCPUID, rfl⟩

/-- Claim C6: when the sibling online-list file does not exist, `IsCPUOnline`
reports the CPU online by short-circuiting on the existence check, for every
reader (the file is never parsed) and every CPU path (id extraction is never
attempted). -/
theorem isCPUOnline_missing_file (stat : String → Except GoErr Unit)
    (readFile : String → Except GoErr String) (root cpuPath : String)
    (h : stat (onlinePathOf root cpuPath) = .error .fsNotExist) :
    IsCPUOnline stat readFile root cpuPath = true := by
  simp only [IsCPUOnline]
  rw [h]

/-- Witness for `isCPUOnline_missing_file`: with the online file absent even a
path without any `cpu<N>` segment and an always-failing reader reports
online. -/
theorem isCPUOnline_missing_file_witness :
    IsCPUOnline (fun _ => .error .fsNotExist) (fun _ => .error .fsOther)
      "" "/sys/devices/system/radon" = true := by
  exact isCPUOnline_missing_file (fun _ => .error .fsNotExist)
    (fun _ => .error .fsOther) "" "/sys/devices/system/radon" rfl

/-- Claim C7 counterexample: with the DMI `product_uuid` readable and holding
"X" followed by one NUL byte, `GetSystemUUID` returns the NUL byte intact —
the claim's trailing-NUL trimming is false for the first source, which is
only whitespace-trimmed by the code. -/
theorem getSystemUUID_dmi_nul_cex :
    GetSystemUUID (fun p =>
      if p = "/sys/class/dmi/id/product_uuid" then .ok "X\x00"
      else .error .fsNotExist) "" = .ok "X\x00" ∧
    ("X\x00" : String) ≠ "X" :=
  ⟨rfl, by decide⟩

/-- Claim C7 (amended): `GetSystemUUID` tries, in order, the DMI
`product_uuid`, the PowerPC device-tree `system-id`, the device-tree
`vm,uuid` and the s390x `machine-id`, returning the first readable content
with surrounding whitespace trimmed; trailing NUL bytes are additionally
stripped for the two device-tree sources only (the DMI and machine-id
contents keep any NULs).  When every read fails, the error of the last
attempted source is returned. -/
theorem getSystemUUID_chain (readFile : String → Except GoErr String)
    (root : String) :
    (∀ c, readFile (goJoinL [root, dmiDir, "id", "product_uuid"]) = .ok c →
      GetSystemUUID readFile root = .ok (goTrimSpace c)) ∧
    (∀ e1 c, readFile (goJoinL [root, dmiDir, "id", "product_uuid"]) = .error e1 →
      readFile (goJoinL [root, ppcDevTree, "system-id"]) = .ok c →
      GetSystemUUID readFile root = .ok (goTrimSpace (goTrimRightNul c))) ∧
    (∀ e1 e2 c, readFile (goJoinL [root, dmiDir, "id", "product_uuid"]) = .error e1 →
      readFile (goJoinL [root, ppcDevTree, "system-id"]) = .error e2 →
      readFile (goJoinL [root, ppcDevTree, "vm,uuid"]) = .ok c →
      GetSystemUUID readFile root = .ok (goTrimSpace (goTrimRightNul c))) ∧
    (∀ e1 e2 e3 c, readFile (goJoinL [root, dmiDir, "id", "product_uuid"]) = .error e1 →
      readFile (goJoinL [root, ppcDevTree, "system-id"]) = .error e2 →
      readFile (goJoinL [root, ppcDevTree, "vm,uuid"]) = .error e3 →
      readFile (goJoinL [root, s390xDevTree, "machine-id"]) = .ok c →
      GetSystemUUID readFile root = .ok (goTrimSpace c)) ∧
    (∀ e1 e2 e3 e4, readFile (goJoinL [root, dmiDir, "id", "product_uuid"]) = .error e1 →
      readFile (goJoinL [root, ppcDevTree, "system-id"]) = .error e2 →
      readFile (goJoinL [root, ppcDevTree, "vm,uuid"]) = .error e3 →
      readFile (goJoinL [root, s390xDevTree, "machine-id"]) = .error e4 →
      GetSystemUUID readFile root = .error e4) := by
  refine ⟨?_, ?_, ?_, ?_, ?_⟩
  · intro c h1
    unfold GetSystemUUID
    rw [h1]
  · intro e1 c h1 h2
    unfold GetSystemUUID
    rw [h1, h2]
  · intro e1 e2 c h1 h2 h3
    unfold GetSystemUUID
    rw [h1, h2, h3]
  · intro e1 e2 e3 c h1 h2 h3 h4
    unfold GetSystemUUID
    rw [h1, h2, h3, h4]
  · intro e1 e2 e3 e4 h1 h2 h3 h4
    unfold GetSystemUUID
    rw [h1, h2, h3, h4]

/-- Witness for `getSystemUUID_chain`: with the DMI path absent and
`system-id` holding "ABC" followed by two NUL bytes, the UUID is "ABC". -/
theorem getSystemUUID_chain_witness :
    GetSystemUUID
      (fun p => if p = "/proc/device-tree/system-id" then .ok "ABC\x00\x00"
        else .error .fsNotExist) "" = .ok "ABC" := by
  have h := (getSystemUUID_chain
    (fun p => if p = "/proc/device-tree/system-id" then .ok "ABC\x00\x00"
      else .error .fsNotExist) "").2.1 GoErr.fsNotExist "ABC\x00\x00" rfl rfl
  rw [h]
  rfl

/-- Claim C8: `getCPUCount` over a `shared_cpu_map` content of comma-separated
hexadecimal masks returns the sum, over all masks, of the population count of
each mask parsed as a 64-bit unsigned integer, fails with the wrapped parse
error when any mask is unparseable, and in particular maps "f" to 4, "0,f" to
4 and "ff,ff" to 16. -/
theorem getCPUCount_popcount_sum :
    (∀ (readFile : String → Except GoErr String) (cache content : String)
      (vs : List Nat),
      readFile (goJoinL [cache, "/shared_cpu_map"]) = .ok content →
      List.Forall₂ (fun m v => goParseUintHex64 (trimSpaceL m) = .ok v)
        (splitChar ',' content.toList) vs →
      getCPUCount readFile cache = .ok ((vs.map bitCount).sum)) ∧
    (∀ (readFile : String → Except GoErr String) (cache content : String),
      readFile (goJoinL [cache, "/shared_cpu_map"]) = .ok content →
      (∃ m ∈ splitChar ',' content.toList, ∃ e,
        goParseUintHex64 (trimSpaceL m) = .error e) →
      getCPUCount readFile cache = .error .cpuMapParse) ∧
    getCPUCount (fun _ => .ok "f") "/c" = .ok 4 ∧
    getCPUCount (fun _ => .ok "0,f") "/c" = .ok 4 ∧
    getCPUCount (fun _ => .ok "ff,ff") "/c" = .ok 16 := by
  refine ⟨?_, ?_, ?_, ?_, ?_⟩
  · intro readFile cache content vs hread hall
    unfold getCPUCount
    rw [hread]
    show getCPUCountContent content.toList = .ok ((vs.map bitCount).sum)
    unfold getCPUCountContent
    rw [cpuCountLoop_ok (splitChar ',' content.toList) vs 0 hall]
    rw [Nat.zero_add]
  · intro readFile cache content hread hbad
    unfold getCPUCount
    rw [hread]
    show getCPUCountContent content.toList = .error .cpuMapParse
    unfold getCPUCountContent
    exact cpuCountLoop_error (splitChar ',' content.toList) 0 hbad
  · have h : getCPUCount (fun _ => .ok "f") "/c" = .ok (0 + bitCount 15) := rfl
    rw [h]
    simp [bitCount]
  · have h : getCPUCount (fun _ => .ok "0,f") "/c" =
      .ok (0 + bitCount 0 + bitCount 15) := rfl
    rw [h]
    simp [bitCount]
  · have h : getCPUCount (fun _ => .ok "ff,ff") "/c" =
      .ok (0 + bitCount 255 + bitCount 255) := rfl
    rw [h]
    simp [bitCount]

/-- Witness for `getCPUCount_popcount_sum`: the sum clause applied to the
two-mask content "3,7" gives popcount 2 + 3 = 5. -/
theorem getCPUCount_popcount_sum_witness :
    getCPUCount (fun _ => .ok "3,7") "/sys/devices/system/cpu/cpu0/cache/index0" =
      .ok 5 := by
  have h := getCPUCount_popcount_sum.1 (fun _ => .ok "3,7")
    "/sys/devices/system/cpu/cpu0/cache/index0" "3,7" [3, 7] rfl
    (List.Forall₂.cons rfl (List.Forall₂.cons rfl List.Forall₂.nil))
  rw [h]
  simp [bitCount]

lemma findCPUNum_digits : ∀ l ds : List Char,
    findCPUNum l = some ds → isDigits ds = true := by
  intro l
  induction l using findCPUNum.induct with
  | case1 rest ds hempty ih =>
    intro ds0 hds
    have hempty2 : (List.takeWhile Char.isDigit rest).isEmpty = true := hempty
    rw [findCPUNum.eq_1, if_pos hempty2] at hds
    exact ih ds0 hds
  | case2 rest ds hne =>
    intro ds0 hds
    have hne2 : ¬(List.takeWhile Char.isDigit rest).isEmpty = true := hne
    rw [findCPUNum.eq_1, if_neg hne2] at hds
    cases hds
    have hrun : (List.takeWhile Char.isDigit rest).isEmpty = false :=
      Bool.eq_false_iff.mpr hne2
    simp only [isDigits, hrun, Bool.not_false, Bool.true_and, List.all_eq_true]
    exact fun x hx => List.mem_takeWhile_imp hx
  | case3 head rest hshape ih =>
    intro ds0 hds
    rw [findCPUNum.eq_2 head rest hshape] at hds
    exact ih ds0 hds
  | case4 =>
    intro ds0 hds
    rw [findCPUNum.eq_3] at hds
    cases hds

/-- Claim C10 counterexample: the path "cpu1/cpu70000" contains the segment
cpu70000 whose value 70000 lies in the claimed range, yet `getCPUID` returns
the id 1 of the leftmost `cpu<digits>` occurrence, not 70000 mod 65536 =
4464, so the claim's universal over every path containing such a segment is
false. -/
theorem getCPUID_earlier_match_cex :
    getCPUID "cpu1/cpu70000" = .ok 1 ∧ (1 : Nat) ≠ 70000 % 65536 :=
  ⟨rfl, by decide⟩

/-- Claim C10 (amended): `getCPUID` extracts the digit run of the leftmost
`cpu<digits>` occurrence in the path; for every path whose leftmost run has a
value of at least `2^16` and at most the maximum 64-bit signed integer, it
succeeds and returns that value truncated modulo `2^16` (the Go `uint16`
conversion) rather than failing with a format or range error. -/
theorem getCPUID_truncates (path : String) (ds : List Char)
    (hfind : findCPUNum path.toList = some ds)
    (hlo : 65536 ≤ digitsToNat ds) (hhi : digitsToNat ds ≤ 2 ^ 63 - 1) :
    getCPUID path = .ok (digitsToNat ds % 65536) := by
  have hdig : isDigits ds = true := findCPUNum_digits path.toList ds hfind
  unfold getCPUID
  rw [hfind]
  show (match goAtoi ds with
    | Except.error e => (Except.error e : Except GoErr Nat)
    | Except.ok id => Except.ok (id % 65536)) = Except.ok (digitsToNat ds % 65536)
  have hatoi : goAtoi ds = .ok (digitsToNat ds) := by
    unfold goAtoi
    rw [digitsVal?_eq hdig]
    show (if digitsToNat ds ≥ 2 ^ 63 then Except.error GoErr.parseRange
      else Except.ok (digitsToNat ds)) = Except.ok (digitsToNat ds)
    exact if_neg (by omega)
  rw [hatoi]

/-- Witness for `getCPUID_truncates`: on the full sysfs path
"/sys/devices/system/cpu/cpu70000" the leftmost match is the run 70000 and
the returned id is 70000 mod 65536 = 4464, with no error. -/
theorem getCPUID_truncates_witness :
    getCPUID "/sys/devices/system/cpu/cpu70000" = .ok 4464 := by
  have h := getCPUID_truncates "/sys/devices/system/cpu/cpu70000"
    "70000".toList rfl (by decide) (by decide)
  rw [h]
  rfl

/-- Claim C9: `GetNetworkDevices` returns exactly the entries of the network class
directory that are directories or symbolic links whose resolved target is a
directory — under the filesystem coherence assumptions that statting a
non-symlink entry returns that entry unchanged, that a successful stat of an
entry's path carries the entry's base name, and that a listed entry is never
both a symlink and a directory.  Regular files are excluded and a symlinked
entry is kept exactly when following the link reaches a directory. -/
theorem getNetworkDevices_filter
    (readDir : String → Except GoErr (List FileInfo))
    (stat : String → Except GoErr FileInfo) (root : String)
    (files : List FileInfo)
    (hrd : readDir (goJoinL [root, netDir]) = .ok files)
    (hfs : ∀ f ∈ files,
      (f.isSymlink = false → stat (goJoinL [root, netDir, f.name]) = .ok f) ∧
      (∀ g, stat (goJoinL [root, netDir, f.name]) = .ok g → g.name = f.name) ∧
      ¬(f.isSymlink = true ∧ f.isDir = true)) :
    ∃ L, GetNetworkDevices readDir stat root = .ok L ∧
      L.map FileInfo.name =
        (files.filter (claimNetPred stat root)).map FileInfo.name := by
  refine ⟨netDevLoop stat root files, ?_, netDevLoop_names stat root files hfs⟩
  unfold GetNetworkDevices
  rw [hrd]

/-- Witness for `getNetworkDevices_filter`: a directory, a regular file, a
symlink to a directory and a dangling symlink; exactly the directory and the
resolving symlink are returned. -/
theorem getNetworkDevices_filter_witness :
    ∃ L, GetNetworkDevices
        (fun p =>
          if p = "/sys/class/net" then
            .ok [⟨"eth0", ModeDir⟩, ⟨"lo.txt", 0⟩, ⟨"veth1", ModeSymlink⟩,
              ⟨"dangling", ModeSymlink⟩]
          else .error .fsOther)
        (fun p =>
          if p = "/sys/class/net/eth0" then .ok ⟨"eth0", ModeDir⟩
          else if p = "/sys/class/net/lo.txt" then .ok ⟨"lo.txt", 0⟩
          else if p = "/sys/class/net/veth1" then .ok ⟨"veth1", ModeDir⟩
          else .error .fsNotExist)
        "" = .ok L ∧
      L.map FileInfo.name = ["eth0", "veth1"] := by
  have hfs : ∀ f ∈ ([⟨"eth0", ModeDir⟩, ⟨"lo.txt", 0⟩, ⟨"veth1", ModeSymlink⟩,
      ⟨"dangling", ModeSymlink⟩] : List FileInfo),
      (f.isSymlink = false →
        ((fun p =>
          if p = "/sys/class/net/eth0" then Except.ok ⟨"eth0", ModeDir⟩
          else if p = "/sys/class/net/lo.txt" then Except.ok ⟨"lo.txt", 0⟩
          else if p = "/sys/class/net/veth1" then Except.ok ⟨"veth1", ModeDir⟩
          else Except.error GoErr.fsNotExist : String → Except GoErr FileInfo)
          (goJoinL ["", netDir, f.name]) = Except.ok f)) ∧
      (∀ g, ((fun p =>
          if p = "/sys/class/net/eth0" then Except.ok ⟨"eth0", ModeDir⟩
          else if p = "/sys/class/net/lo.txt" then Except.ok ⟨"lo.txt", 0⟩
          else if p = "/sys/class/net/veth1" then Except.ok ⟨"veth1", ModeDir⟩
          else Except.error GoErr.fsNotExist : String → Except GoErr FileInfo)
          (goJoinL ["", netDir, f.name]) = Except.ok g) →
        g.name = f.name) ∧
      ¬(f.isSymlink = true ∧ f.isDir = true) := by
    intro f hf
    simp only [List.mem_cons, List.not_mem_nil, or_false] at hf
    rcases hf with rfl | rfl | rfl | rfl
    · exact ⟨fun _ => rfl, fun g hg => by injection hg with h; rw [← h],
        by decide⟩
    · exact ⟨fun _ => rfl, fun g hg => by injection hg with h; rw [← h],
        by decide⟩
    · exact ⟨fun hfalse => absurd hfalse (by decide),
        fun g hg => by injection hg with h; rw [← h], by decide⟩
    · exact ⟨fun hfalse => absurd hfalse (by decide),
        fun g hg => by injection hg, by decide⟩
  obtain ⟨L, hL, hnames⟩ := getNetworkDevices_filter
    (fun p =>
      if p = "/sys/class/net" then
        .ok [⟨"eth0", ModeDir⟩, ⟨"lo.txt", 0⟩, ⟨"veth1", ModeSymlink⟩,
          ⟨"dangling", ModeSymlink⟩]
      else .error .fsOther)
    (fun p =>
      if p = "/sys/class/net/eth0" then .ok ⟨"eth0", ModeDir⟩
      else if p = "/sys/class/net/lo.txt" then .ok ⟨"lo.txt", 0⟩
      else if p = "/sys/class/net/veth1" then .ok ⟨"veth1", ModeDir⟩
      else .error .fsNotExist)
    "" [⟨"eth0", ModeDir⟩, ⟨"lo.txt", 0⟩, ⟨"veth1", ModeSymlink⟩,
      ⟨"dangling", ModeSymlink⟩] rfl hfs
  exact ⟨L, hL, by rw [hnames]; rfl⟩
